import Mathlib

/-!
A shallow embedding of the Axeon control plane's core data model and
operations: the IPAM subsystem (networks, ip_leases, allocation/release),
the job store maintenance sweep, the event bus, the startup reconciliation
sync, and the create-instance HTTP admission path.

Modelling conventions:
- SQL tables are lists of row structures; an SQL `UPDATE ... WHERE` is a
  `List.map` guarded by the row predicate, a `DELETE ... WHERE` is a
  `List.filter` on the negated predicate, and `QueryRow` is `List.find?`.
- 32-bit unsigned arithmetic is `Nat` with explicit masks where the Go code
  relies on the word size (`cidrToRange`).
- A network's CIDR is stored already parsed (base address and mask size),
  matching the data-model invariant that the CIDR column is parseable.
- Time is an abstract `Nat` tick passed explicitly wherever the code calls
  `time.Now()`.
-/

namespace Axeon

/-! ## IPAM data model (db/networks.go) -/

/-- One row of the `ip_leases` table: `ip` (text primary key),
nullable `instance_name`, nullable `allocated_at`, `network_id`. -/
structure Lease where
  ip : String
  instanceName : Option String
  allocatedAt : Option Nat
  networkId : String
deriving DecidableEq

/-- One row of the `networks` table.  The CIDR column is held in parsed
form: `cidrBase` is the 32-bit value of the address written before the
slash and `cidrOnes` the mask size (`ones` in the Go code). -/
structure Network where
  id : String
  name : String
  cidrBase : Nat
  cidrOnes : Nat
  gateway : String
  dns1 : String
  vlanId : Int
  isPublic : Bool
deriving DecidableEq

/-- `binary.BigEndian.Uint32(net.CIDRMask(ones, 32))`: the 32-bit mask with
the `ones` high bits set. -/
def cidrMask (ones : Nat) : Nat :=
  2 ^ 32 - 2 ^ (32 - ones)

/-- `CidrToRange`: start is the (unmasked) address given in the CIDR,
end is the broadcast address `(start &&& mask) ||| (mask ^^^ 0xffffffff)`. -/
def cidrToRange (base ones : Nat) : Nat × Nat :=
  let mask := cidrMask ones
  (base, (base &&& mask) ||| (mask ^^^ 0xffffffff))

/-- `IntToIP`: dotted-quad rendering of a 32-bit value
(`binary.BigEndian.PutUint32` then `net.IP.String`). -/
def intToIP (n : Nat) : String :=
  toString (n / 16777216 % 256) ++ "." ++ toString (n / 65536 % 256) ++ "." ++
    toString (n / 256 % 256) ++ "." ++ toString (n % 256)

/-- The `usedMap` snapshot of `tryAllocateInNetwork`:
`SELECT ip FROM ip_leases WHERE network_id = $1 AND instance_name IS NOT NULL`. -/
def ownedIPsIn (networkId : String) (leases : List Lease) : List String :=
  (leases.filter (fun l => l.networkId == networkId && l.instanceName.isSome)).map
    (fun l => l.ip)

/-- The claim-or-insert transaction body of `tryAllocateInNetwork` for one
candidate address: re-check global existence of the ip; if a row exists,
`UPDATE ... SET instance_name, allocated_at, network_id WHERE ip = $ AND
instance_name IS NULL` and fail when it affects zero rows; otherwise
`INSERT` a fresh owned row.  `none` means the candidate is discarded. -/
def claimIP (now : Nat) (netId instanceName ipStr : String) (leases : List Lease) :
    Option (List Lease) :=
  let existsGlobal := leases.any (fun l => l.ip == ipStr)
  if existsGlobal then
    let affected := leases.countP (fun l => l.ip == ipStr && l.instanceName.isNone)
    if affected == 0 then
      none
    else
      some (leases.map (fun l =>
        if l.ip == ipStr && l.instanceName.isNone then
          { l with instanceName := some instanceName, allocatedAt := some now,
                   networkId := netId }
        else l))
  else
    some (leases ++ [{ ip := ipStr, instanceName := some instanceName,
                       allocatedAt := some now, networkId := netId }])

/-- The ascending scan `for i := currentIP; i < endIP; i++` of
`tryAllocateInNetwork`, with the remaining iteration count as fuel:
skip addresses in the `usedMap` snapshot, otherwise run the
claim-or-insert transaction and move on when it is rolled back. -/
def scanForFree (now : Nat) (net : Network) (instanceName : String)
    (used : List String) (leases : List Lease) :
    Nat → Nat → Option (String × List Lease)
  | _, 0 => none
  | i, Nat.succ fuel =>
    let ipStr := intToIP i
    if used.contains ipStr then
      scanForFree now net instanceName used leases (i + 1) fuel
    else
      match claimIP now net.id instanceName ipStr leases with
      | some leases2 => some (ipStr, leases2)
      | none => scanForFree now net instanceName used leases (i + 1) fuel

/-- `tryAllocateInNetwork`: compute the range from the CIDR, snapshot the
owned addresses of this network, and scan from `currentIP := startIP + 2`
(skipping the network and gateway addresses) up to but excluding the
broadcast address.  `currentIP` is a Go `uint32`, so the addition wraps
modulo `2^32` at the top of the address space; the loop counter itself
never wraps, since it stays below `endIP < 2^32`. -/
def tryAllocateInNetwork (now : Nat) (net : Network) (instanceName : String)
    (leases : List Lease) : Option (String × List Lease) :=
  let r := cidrToRange net.cidrBase net.cidrOnes
  let currentIP := (r.1 + 2) % 2 ^ 32
  let used := ownedIPsIn net.id leases
  scanForFree now net instanceName used leases currentIP (r.2 - currentIP)

/-- `getAvailableNetworks`: `SELECT ... FROM networks WHERE is_public = $1
ORDER BY created_at ASC`.  The input list is taken to be in creation
order, so the query is a filter. -/
def getAvailableNetworks (isPro : Bool) (networks : List Network) : List Network :=
  networks.filter (fun n => n.isPublic == isPro)

/-- The network-by-network loop of `AllocateIP`: first pool that yields an
address wins, errors fall through to the next pool. -/
def allocateIPLoop (now : Nat) (instanceName : String) (leases : List Lease) :
    List Network → Option (String × List Lease)
  | [] => none
  | net :: rest =>
    match tryAllocateInNetwork now net instanceName leases with
    | some r => some r
    | none => allocateIPLoop now instanceName leases rest

/-- `AllocateIP`: plan type is hardcoded to the free tier (`isPro = false`),
candidate pools are the private networks in creation order, and the final
fall-through is the `no IP addresses available in any pool` error
(`none` here). -/
def allocateIP (now : Nat) (networks : List Network) (instanceName : String)
    (leases : List Lease) : Option (String × List Lease) :=
  allocateIPLoop now instanceName leases (getAvailableNetworks false networks)

/-- A sequence of `AllocateIP` calls threading the lease table, recording
each call's outcome (used to state the /29 exhaustion scenario). -/
def allocSeq (now : Nat) (networks : List Network) :
    List String → List Lease → List (Option String)
  | [], _ => []
  | name :: rest, leases =>
    match allocateIP now networks name leases with
    | some r => some r.1 :: allocSeq now networks rest r.2
    | none => none :: allocSeq now networks rest leases

/-! ## ReleaseIP / GetInstanceIP (db/networks.go) -/

/-- `ReleaseIP`: `UPDATE ip_leases SET instance_name = NULL,
allocated_at = NULL WHERE instance_name = $1` — ownership is cleared, the
row is kept. -/
def releaseIP (instanceName : String) (leases : List Lease) : List Lease :=
  leases.map (fun l =>
    if l.instanceName == some instanceName then
      { l with instanceName := none, allocatedAt := none }
    else l)

/-- `GetInstanceIP`: `SELECT ip FROM ip_leases WHERE instance_name = $1`;
`sql.ErrNoRows` is converted to the empty string with no error. -/
def getInstanceIP (instanceName : String) (leases : List Lease) : Except String String :=
  match leases.find? (fun l => l.instanceName == some instanceName) with
  | none => Except.ok ""
  | some l => Except.ok l.ip

/-! ## Network stats and deletion (db/networks.go) -/

/-- `TotalIPs` as computed by `GetNetworksWithStats` and
`GetNetworkDetails`: `1 << (32 - ones)`, minus 3 (network, gateway,
broadcast) only when the raw size exceeds 2. -/
def totalIPsOf (ones : Nat) : Nat :=
  let t := 2 ^ (32 - ones)
  if 2 < t then t - 3 else t

/-- `UsedIPs`: `SELECT COUNT(*) FROM ip_leases WHERE network_id = $1 AND
instance_name IS NOT NULL`. -/
def usedIPsOf (netId : String) (leases : List Lease) : Nat :=
  (leases.filter (fun l => l.networkId == netId && l.instanceName.isSome)).length

/-- The per-network record produced by `GetNetworksWithStats`.  The Go
`float64` usage percentage is modelled as an exact rational. -/
structure NetworkStats where
  network : Network
  totalIPs : Nat
  usedIPs : Nat
  usagePercent : ℚ
deriving DecidableEq

/-- `GetNetworksWithStats`: every network row decorated with its total,
used count and usage percentage (0 when `TotalIPs` is 0, the Go zero
value). -/
def getNetworksWithStats (networks : List Network) (leases : List Lease) :
    List NetworkStats :=
  networks.map (fun n =>
    let total := totalIPsOf n.cidrOnes
    let used := usedIPsOf n.id leases
    { network := n, totalIPs := total, usedIPs := used,
      usagePercent := if 0 < total then (used : ℚ) / (total : ℚ) * 100 else 0 })

/-- Outcome of `DeleteNetwork`: the (possibly unchanged) tables and the
returned error, if any.  The two DELETE statements run outside any
transaction, so the model applies them even when the final
`rows == 0` check produces `sql.ErrNoRows`. -/
structure DeleteNetworkResult where
  err : Option String
  networks : List Network
  leases : List Lease
deriving DecidableEq

/-- `DeleteNetwork`: refuse while any owned lease references the pool;
otherwise delete all of the pool's leases, then the pool row itself,
reporting `sql.ErrNoRows` when no network row was deleted. -/
def deleteNetwork (id : String) (networks : List Network) (leases : List Lease) :
    DeleteNetworkResult :=
  let count := (leases.filter (fun l => l.networkId == id && l.instanceName.isSome)).length
  if 0 < count then
    { err := some "network has active IP allocations", networks := networks,
      leases := leases }
  else
    let leases2 := leases.filter (fun l => !(l.networkId == id))
    let rowsAff := (networks.filter (fun n => n.id == id)).length
    let networks2 := networks.filter (fun n => !(n.id == id))
    if rowsAff == 0 then
      { err := some "sql: no rows in result set", networks := networks2,
        leases := leases2 }
    else
      { err := none, networks := networks2, leases := leases2 }

/-! ## Event bus (events package) -/

/-- `EventType`: `job_update` or `state_change`. -/
inductive EventType
  | jobUpdate
  | stateChange
deriving DecidableEq

/-- An `Event` record on the bus; the opaque JSON payload is a string. -/
structure Event where
  eventType : EventType
  jobId : String
  target : String
  payload : String
  timestamp : Int
deriving DecidableEq

/-- The capacity of the `GlobalBus` buffered channel. -/
def busCapacity : Nat := 1000

/-- `Publish`: a non-blocking `select` send on `GlobalBus` — the event is
appended while the buffer has room and silently dropped once it is full.
The channel's undelivered contents are the list. -/
def publish (bus : List Event) (evt : Event) : List Event :=
  if bus.length < busCapacity then bus ++ [evt] else bus

/-! ## Job store rows -/

/-- The `status` column of a job. -/
inductive JobStatus
  | pending
  | inProgress
  | completed
  | failed
deriving DecidableEq

/-- One row of the `jobs` table (migration 1). -/
structure Job where
  id : String
  jobType : String
  target : String
  payload : String
  status : JobStatus
  errMsg : Option String
  createdAt : Nat
  startedAt : Option Nat
  finishedAt : Option Nat
  attemptCount : Nat
  requestedBy : Option String
deriving DecidableEq

/-- Modelled from the spec: whether a job "has been IN_PROGRESS longer than
`staleAfter`" — the stale test of `RecoverStuckJobs`, whose implementation
(`JobRepository.RecoverStuckJobs`) is not among the repository files; only
its caller `RunMaintenance` is.  Time is in abstract ticks. -/
def isStuck (now staleAfter : Nat) (j : Job) : Bool :=
  j.status == JobStatus.inProgress &&
    (match j.startedAt with
     | some t => decide (staleAfter < now - t)
     | none => false)

/-- Modelled from the spec: `RecoverStuckJobs(staleAfter)` resets any job
that has been IN_PROGRESS longer than `staleAfter` back to PENDING with
`attempt_count + 1`, without mutating any other job.  The implementation
is not among the repository files; only its caller `RunMaintenance` is. -/
def recoverStuckJobs (now staleAfter : Nat) (jobs : List Job) : List Job :=
  jobs.map (fun j =>
    if isStuck now staleAfter j then
      { j with status := JobStatus.pending, attemptCount := j.attemptCount + 1 }
    else j)

/-! ## POST /instances admission path (main, in the repository README) -/

/-- The row `db.CreateJob` persists for the handler's
`db.Job{ID, Type, Target, Payload}` value: a fresh PENDING job with
`attempt_count = 0` (spec §4.2; `CreateJob` itself is not among the
repository files). -/
def createJobRow (now : Nat) (jobID jobType target payload : String) : Job :=
  { id := jobID, jobType := jobType, target := target, payload := payload,
    status := JobStatus.pending, errMsg := none, createdAt := now,
    startedAt := none, finishedAt := none, attemptCount := 0,
    requestedBy := none }

/-- What the `POST /instances` handler leaves behind: the HTTP status, the
`job_id` of the response body (when one is sent), and the jobs table. -/
structure PostInstancesResult where
  status : Nat
  jobId : Option String
  jobs : List Job
deriving DecidableEq

/-- The `POST /instances` handler: bind the JSON (400 on failure), run
`CheckGlobalQuota` (409 on rejection, before any job write), then persist
the job (500 when the insert fails) and answer 202 with the job id.
The quota verdict and the insert outcome are inputs, standing for the
Runtime Provider's usage numbers and the database respectively. -/
def postInstancesHandler (now : Nat) (bindOk : Bool) (quotaErr : Option String)
    (createErr : Bool) (jobID reqName payload : String) (jobs : List Job) :
    PostInstancesResult :=
  if !bindOk then
    { status := 400, jobId := none, jobs := jobs }
  else
    match quotaErr with
    | some _ => { status := 409, jobId := none, jobs := jobs }
    | none =>
      if createErr then
        { status := 500, jobId := none, jobs := jobs }
      else
        { status := 202, jobId := some jobID,
          jobs := jobs ++ [createJobRow now jobID "create_instance" reqName payload] }

/-! ## Instance store and startup reconciliation sync
(database/instances.go and scheduler/sync.go) -/

/-- One row of the `instances` table.  The JSONB `limits` column is held as
an association list. -/
structure Instance where
  name : String
  image : String
  limits : List (String × String)
  userData : String
  instType : String
  backupSchedule : String
  backupRetention : Nat
  backupEnabled : Bool
deriving DecidableEq

/-- Database errors as `RunStartupSync` can observe them: the sentinel
`sql.ErrNoRows`, or any other error value (compared by message). -/
inductive DBError
  | sqlErrNoRows
  | wrapped (msg : String)
deriving DecidableEq

/-- `InstanceRepository.Get` (via the `GetInstance` compatibility wrapper):
`SELECT ... WHERE name = $1`; a missing row surfaces from `Scan` as
`sql.ErrNoRows`, which Get replaces with the distinct error
`fmt.Errorf("instance not found: %s", name)`; a zero `backup_retention`
is defaulted to 7. -/
def getInstance (store : List Instance) (name : String) : Except DBError Instance :=
  match store.find? (fun i => i.name == name) with
  | none => Except.error (DBError.wrapped ("instance not found: " ++ name))
  | some inst =>
    Except.ok
      (if inst.backupRetention == 0 then { inst with backupRetention := 7 } else inst)

/-- `InstanceRepository.Create` (via `CreateInstance`): an `INSERT`, which
the primary key makes fail on a duplicate name. -/
def createInstance (store : List Instance) (inst : Instance) :
    Except DBError (List Instance) :=
  if store.any (fun i => i.name == inst.name) then
    Except.error (DBError.wrapped "duplicate key value")
  else
    Except.ok (store ++ [inst])

/-- `InstanceRepository.UpdateLimits` (via `UpdateInstanceStatusAndLimits`):
`UPDATE instances SET limits = $1 WHERE name = $2`, an error when no row
was affected. -/
def updateInstanceLimits (store : List Instance) (name : String)
    (limits : List (String × String)) : Except DBError (List Instance) :=
  if store.any (fun i => i.name == name) then
    Except.ok (store.map (fun i =>
      if i.name == name then { i with limits := limits } else i))
  else
    Except.error (DBError.wrapped ("instance not found: " ++ name))

/-- Go map read: missing keys yield the empty string. -/
def kvGet (m : List (String × String)) (k : String) : String :=
  match m.find? (fun p => p.1 == k) with
  | some p => p.2
  | none => ""

/-- Go map write. -/
def kvSet (m : List (String × String)) (k v : String) : List (String × String) :=
  if m.any (fun p => p.1 == k) then
    m.map (fun p => if p.1 == k then (k, v) else p)
  else
    m ++ [(k, v)]

/-- Go map `delete`. -/
def kvDel (m : List (String × String)) (k : String) : List (String × String) :=
  m.filter (fun p => !(p.1 == k))

/-- An address record of an interface in an LXD instance state. -/
structure LxdAddress where
  family : String
  address : String
deriving DecidableEq

/-- One interface of an LXD instance state. -/
structure LxdNetworkState where
  addresses : List LxdAddress
deriving DecidableEq

/-- The result of `GetInstanceState` for an instance. -/
structure LxdInstanceState where
  status : String
  network : List (String × LxdNetworkState)
deriving DecidableEq

/-- A live instance as reported by the Runtime Provider's `ListInstances`;
`state` is `none` when the follow-up `GetInstanceState` call errors. -/
structure LxdInstance where
  name : String
  config : List (String × String)
  instType : String
  status : String
  state : Option LxdInstanceState
deriving DecidableEq

/-- The `eth0` address walk of the sync's update path: the last `inet`
address wins, the first `inet6` address wins. -/
def extractAddrs (addrs : List LxdAddress) : String × String :=
  addrs.foldl (fun acc a =>
    if a.family == "inet" then (a.address, acc.2)
    else if a.family == "inet6" && acc.2 == "" then (acc.1, a.address)
    else acc) ("", "")

/-- The limits map the sync's update path writes back: on a state error,
only the (uppercased) list status; otherwise the discovered IPv4/IPv6
addresses are set (or their keys removed when absent) and the state's
status is written uppercased. -/
def syncUpdatedLimits (dbLimits : List (String × String)) (li : LxdInstance) :
    List (String × String) :=
  match li.state with
  | none => kvSet dbLimits "status" li.status.toUpper
  | some st =>
    let found :=
      match st.network.find? (fun p => p.1 == "eth0") with
      | some p => extractAddrs p.2.addresses
      | none => ("", "")
    let l1 :=
      if found.1 == "" then kvDel dbLimits "volatile.ipv4"
      else kvSet dbLimits "volatile.ipv4" found.1
    let l2 :=
      if found.2 == "" then kvDel l1 "volatile.ipv6"
      else kvSet l1 "volatile.ipv6" found.2
    kvSet l2 "status" st.status.toUpper

/-- One iteration of `RunStartupSync`'s loop: query the store; on the
`sql.ErrNoRows` sentinel import the instance with the default backup
policy (schedule `@daily`, retention 7, disabled), on any other error only
log; on a hit write back the refreshed limits.  Errors of the writes are
logged and leave the store as it was. -/
def syncOne (store : List Instance) (li : LxdInstance) : List Instance :=
  match getInstance store li.name with
  | Except.error e =>
    if e == DBError.sqlErrNoRows then
      match createInstance store
          { name := li.name, image := kvGet li.config "volatile.base_image",
            limits := li.config, userData := "", instType := li.instType,
            backupSchedule := "@daily", backupRetention := 7,
            backupEnabled := false } with
      | Except.ok store2 => store2
      | Except.error _ => store
    else
      store
  | Except.ok dbInst =>
    match updateInstanceLimits store dbInst.name (syncUpdatedLimits dbInst.limits li) with
    | Except.ok store2 => store2
    | Except.error _ => store

/-- `RunStartupSync`: fold the per-instance step over the provider's
listing. -/
def runStartupSync (store : List Instance) (lxdInstances : List LxdInstance) :
    List Instance :=
  lxdInstances.foldl syncOne store

/-! ## Concrete fixtures used by witnesses and concrete scenarios -/

/-- A job stuck IN_PROGRESS since tick 400 (600 s old at tick 1000). -/
def jobStale : Job :=
  { id := "j1", jobType := "backup", target := "vm1", payload := "\x7b\x7d",
    status := JobStatus.inProgress, errMsg := none, createdAt := 300,
    startedAt := some 400, finishedAt := none, attemptCount := 0,
    requestedBy := none }

/-- A job IN_PROGRESS for only 60 s at tick 1000. -/
def jobFresh : Job :=
  { jobStale with id := "j2", startedAt := some 940 }

/-- A lease owned by `vm1`. -/
def leaseEx : Lease :=
  { ip := "10.0.0.2", instanceName := some "vm1", allocatedAt := some 0,
    networkId := "n1" }

/-- The private `10.0.0.0/29` pool of the spec's exhaustion scenario
(`10.0.0.0` is 167772160). -/
def net29ex : Network :=
  { id := "n1", name := "default", cidrBase := 167772160, cidrOnes := 29,
    gateway := "10.0.0.1", dns1 := "", vlanId := 0, isPublic := false }

/-- The lease row the first /29 allocation creates at tick 0. -/
def lease2ex : Lease :=
  { ip := "10.0.0.2", instanceName := some "vm1", allocatedAt := some 0,
    networkId := "n1" }

/-! ## Theorems -/

/-- C9: `Publish` is a total function on the bus state — it always returns —
and for every event and bus state it appends the event while the bus holds
fewer than 1000 undelivered events and silently drops it, leaving the bus
unchanged, once the bus is full. -/
theorem publish_spec (bus : List Event) (evt : Event) :
    (bus.length < busCapacity → publish bus evt = bus ++ [evt]) ∧
    (busCapacity ≤ bus.length → publish bus evt = bus) := by
  constructor
  · intro h
    simp [publish, h]
  · intro h
    simp [publish, Nat.not_lt.mpr h]

/-- C5: a create-instance request whose quota check fails is answered
409 Conflict with the jobs table untouched; a request that passes the
quota check and whose job row persists is answered 202 Accepted carrying
exactly the id of the job that was appended to the jobs table. -/
theorem postInstances_admission (now : Nat) (quotaMsg : String) (createErr : Bool)
    (jobID reqName payload : String) (jobs : List Job) :
    (postInstancesHandler now true (some quotaMsg) createErr jobID reqName payload jobs
      = { status := 409, jobId := none, jobs := jobs }) ∧
    (postInstancesHandler now true none false jobID reqName payload jobs
      = { status := 202, jobId := some jobID,
          jobs := jobs ++ [createJobRow now jobID "create_instance" reqName payload] }) ∧
    ((jobs ++ [createJobRow now jobID "create_instance" reqName payload]).map Job.id
      = jobs.map Job.id ++ [jobID]) := by
  refine ⟨rfl, rfl, ?_⟩
  simp [createJobRow]

/-- C7: `ReleaseIP` leaves the lease rows in place — same ips with the same
network ids, in the same positions — never deletes or inserts a row,
clears both `instance_name` and `allocated_at` on every row the instance
owned, leaves every other row untouched, and afterwards no row is owned by
the instance. -/
theorem releaseIP_spec (name : String) (leases : List Lease) :
    ((releaseIP name leases).map (fun l => (l.ip, l.networkId))
      = leases.map (fun l => (l.ip, l.networkId))) ∧
    (∀ l ∈ releaseIP name leases, l.instanceName ≠ some name) ∧
    (∀ (i : Nat) (l : Lease), leases[i]? = some l → l.instanceName = some name →
      (releaseIP name leases)[i]? =
        some { l with instanceName := none, allocatedAt := none }) ∧
    (∀ (i : Nat) (l : Lease), leases[i]? = some l → l.instanceName ≠ some name →
      (releaseIP name leases)[i]? = some l) := by
  refine ⟨?_, ?_, ?_, ?_⟩
  · rw [releaseIP, List.map_map]
    apply List.map_congr_left
    intro l _
    by_cases h : l.instanceName = some name <;> simp [h]
  · intro l hl
    rw [releaseIP] at hl
    obtain ⟨a, _, rfl⟩ := List.mem_map.mp hl
    by_cases h : a.instanceName = some name <;> simp [h]
  · intro i l h1 h2
    simp [releaseIP, List.getElem?_map, h1, h2]
  · intro i l h1 h2
    simp [releaseIP, List.getElem?_map, h1, h2]

/-- C8: `RecoverStuckJobs` (modelled from the spec, its implementation being
outside the repository files) maps the jobs table position by position:
a job IN_PROGRESS for longer than `staleAfter` is reset to PENDING with
`attempt_count + 1` and everything else about it kept, and every other job
— PENDING, COMPLETED, FAILED, or IN_PROGRESS no longer than the threshold
— is returned unchanged.  Concretely (ticks in seconds, `staleAfter` 300 =
5 minutes): a job IN_PROGRESS for 600 s goes from attempt 0 to 1 and back
to PENDING while a job IN_PROGRESS for 60 s is untouched. -/
theorem recoverStuckJobs_spec (now staleAfter : Nat) (jobs : List Job) :
    (recoverStuckJobs 1000 300 [jobStale, jobFresh] =
      [{ jobStale with status := JobStatus.pending, attemptCount := 1 }, jobFresh]) ∧
    ((recoverStuckJobs now staleAfter jobs).length = jobs.length) ∧
    (∀ (i : Nat) (j : Job), jobs[i]? = some j →
      ((j.status = JobStatus.inProgress ∧
          (∃ t, j.startedAt = some t ∧ staleAfter < now - t)) →
        (recoverStuckJobs now staleAfter jobs)[i]? =
          some { j with status := JobStatus.pending,
                        attemptCount := j.attemptCount + 1 }) ∧
      (¬ (j.status = JobStatus.inProgress ∧
          (∃ t, j.startedAt = some t ∧ staleAfter < now - t)) →
        (recoverStuckJobs now staleAfter jobs)[i]? = some j)) := by
  refine ⟨by decide, by simp [recoverStuckJobs], ?_⟩
  intro i j hj
  have hs : ∀ b : Job, isStuck now staleAfter b = true ↔
      (b.status = JobStatus.inProgress ∧
        (∃ t, b.startedAt = some t ∧ staleAfter < now - t)) := by
    intro b
    cases hb : b.startedAt <;>
      simp [isStuck, hb]
  constructor
  · intro hcond
    simp [recoverStuckJobs, List.getElem?_map, hj, if_pos ((hs j).mpr hcond)]
  · intro hcond
    have : isStuck now staleAfter j = false := by
      rcases Bool.eq_false_or_eq_true (isStuck now staleAfter j) with h | h
      · exact absurd ((hs j).mp h) hcond
      · exact h
    simp [recoverStuckJobs, List.getElem?_map, hj, this]

/-- C6: `DeleteNetwork` with an owned lease in the pool returns the
active-allocations error and leaves the lease and network tables exactly
as they were; with no owned lease it removes every lease row of that
network (owned or not), keeps every other lease row, and removes the
network row while keeping all other networks. -/
theorem deleteNetwork_spec (id : String) (networks : List Network) (leases : List Lease) :
    ((∃ l ∈ leases, l.networkId = id ∧ l.instanceName ≠ none) →
      deleteNetwork id networks leases =
        { err := some "network has active IP allocations", networks := networks,
          leases := leases }) ∧
    ((∀ l ∈ leases, l.networkId = id → l.instanceName = none) →
      (∀ l ∈ (deleteNetwork id networks leases).leases, l.networkId ≠ id) ∧
      (∀ l ∈ leases, l.networkId ≠ id → l ∈ (deleteNetwork id networks leases).leases) ∧
      (∀ n ∈ (deleteNetwork id networks leases).networks, n.id ≠ id) ∧
      (∀ n ∈ networks, n.id ≠ id → n ∈ (deleteNetwork id networks leases).networks)) := by
  constructor
  · rintro ⟨l0, hl0, hnet, hown⟩
    have hmem : l0 ∈ leases.filter
        (fun l => l.networkId == id && l.instanceName.isSome) := by
      simp [List.mem_filter, hl0, hnet, Option.isSome_iff_ne_none, hown]
    have hpos : 0 < (leases.filter
        (fun l => l.networkId == id && l.instanceName.isSome)).length :=
      List.length_pos.mpr (List.ne_nil_of_mem hmem)
    simp [deleteNetwork, hpos]
  · intro hfree
    have hnil : leases.filter (fun l => l.networkId == id && l.instanceName.isSome)
        = [] := by
      rw [List.filter_eq_nil_iff]
      intro l hl
      by_cases hnet : l.networkId = id
      · simp [hnet, hfree l hl hnet]
      · simp [hnet]
    have hres : (deleteNetwork id networks leases).leases
          = leases.filter (fun l => !(l.networkId == id)) ∧
        (deleteNetwork id networks leases).networks
          = networks.filter (fun n => !(n.id == id)) := by
      simp only [deleteNetwork, hnil, List.length_nil, Nat.lt_irrefl, if_false]
      split <;> exact ⟨rfl, rfl⟩
    refine ⟨?_, ?_, ?_, ?_⟩
    · intro l hl
      rw [hres.1, List.mem_filter] at hl
      simpa using hl.2
    · intro l hl hne
      rw [hres.1, List.mem_filter]
      exact ⟨hl, by simpa using hne⟩
    · intro n hn
      rw [hres.2, List.mem_filter] at hn
      simpa using hn.2
    · intro n hn hne
      rw [hres.2, List.mem_filter]
      exact ⟨hn, by simpa using hne⟩

/-- C10: `GetInstanceIP` for an instance that owns no lease row — unknown
names included — answers the empty string with no error (never a NotFound
error), and, provided every stored ip is a non-empty string (they are
dotted quads), a non-empty address comes back exactly when some lease row
names the instance as its owner. -/
theorem getInstanceIP_spec (name : String) (leases : List Lease)
    (hip : ∀ l ∈ leases, l.ip ≠ "") :
    ((∀ l ∈ leases, l.instanceName ≠ some name) →
      getInstanceIP name leases = Except.ok "") ∧
    ((∃ s, s ≠ "" ∧ getInstanceIP name leases = Except.ok s) ↔
      (∃ l ∈ leases, l.instanceName = some name)) := by
  constructor
  · intro hnone
    have : leases.find? (fun l => l.instanceName == some name) = none := by
      rw [List.find?_eq_none]
      intro l hl
      simpa using hnone l hl
    simp [getInstanceIP, this]
  · constructor
    · rintro ⟨s, hs, hok⟩
      cases hfind : leases.find? (fun l => l.instanceName == some name) with
      | none =>
        rw [getInstanceIP, hfind] at hok
        exact absurd (by injection hok with h; exact h.symm) hs
      | some l =>
        refine ⟨l, List.mem_of_find?_eq_some hfind, ?_⟩
        simpa using List.find?_some hfind
    · rintro ⟨l0, hl0, hown⟩
      cases hfind : leases.find? (fun l => l.instanceName == some name) with
      | none =>
        rw [List.find?_eq_none] at hfind
        exact absurd hown (by simpa using hfind l0 hl0)
      | some l =>
        refine ⟨l.ip, hip l (List.mem_of_find?_eq_some hfind), ?_⟩
        simp [getInstanceIP, hfind]

/-- C10 witness: on a one-row table owned by `vm1`, an unknown name gets
the empty string with no error. -/
theorem getInstanceIP_spec_witness :
    getInstanceIP "ghost" [leaseEx] = Except.ok "" :=
  (getInstanceIP_spec "ghost" [leaseEx] (by decide)).1 (by decide)

/-- A /31 network: `10.0.0.0/31`. -/
def net31ex : Network :=
  { id := "n31", name := "tiny", cidrBase := 167772160, cidrOnes := 31,
    gateway := "", dns1 := "", vlanId := 0, isPublic := false }

/-- C4 counterexample: for prefix length 31 the code reports `TotalIPs = 2`
(`1 << 1` is not `> 2`, so 3 is never subtracted), while the claimed
formula `max(2^(32-31) - 3, 0)` is 0. -/
theorem getNetworksWithStats_totalIPs_cex :
    ((getNetworksWithStats [net31ex] []).map NetworkStats.totalIPs = [2]) ∧
    (([2] : List Nat) ≠ [max (2 ^ (32 - 31) - 3) 0]) := by
  constructor
  · simp [getNetworksWithStats, net31ex, totalIPsOf, usedIPsOf]
  · decide

/-- C4 (amended): `GetNetworksWithStats` keeps every network in order and
reports, for prefix length p, `TotalIPs = 2^(32-p) - 3` when `2^(32-p) > 2`
and `TotalIPs = 2^(32-p)` otherwise (so 2 for p = 31 and 1 for p = 32, not
0), `UsedIPs` = the number of leases of that network with a non-null
owner, and `UsagePercent = UsedIPs/TotalIPs * 100` when `TotalIPs > 0`
(0 otherwise), the `float64` ratio taken as an exact rational. -/
theorem getNetworksWithStats_fields (networks : List Network) (leases : List Lease)
    (i : Nat) (hi : i < networks.length) :
    (getNetworksWithStats networks leases)[i]? = some
      { network := networks[i],
        totalIPs :=
          if 2 < 2 ^ (32 - networks[i].cidrOnes) then 2 ^ (32 - networks[i].cidrOnes) - 3
          else 2 ^ (32 - networks[i].cidrOnes),
        usedIPs := (leases.filter (fun l =>
          l.networkId == networks[i].id && l.instanceName.isSome)).length,
        usagePercent :=
          if 0 < totalIPsOf networks[i].cidrOnes then
            ((usedIPsOf networks[i].id leases : ℚ) /
              (totalIPsOf networks[i].cidrOnes : ℚ)) * 100
          else 0 } := by
  simp [getNetworksWithStats, List.getElem?_map, List.getElem?_eq_getElem hi,
    totalIPsOf, usedIPsOf]

/-- C4 witness: the /31 network with an empty lease table is reported with
`TotalIPs = 2`, `UsedIPs = 0`, `UsagePercent = 0`. -/
theorem getNetworksWithStats_fields_witness :
    (getNetworksWithStats [net31ex] [])[0]? =
      some { network := net31ex, totalIPs := 2, usedIPs := 0, usagePercent := 0 } := by
  rw [getNetworksWithStats_fields [net31ex] [] 0 (by decide)]
  simp [net31ex, totalIPsOf, usedIPsOf]

/-- A live provider instance that has no row in the instance store. -/
def ghostLxd : LxdInstance :=
  { name := "vm1", config := [("volatile.base_image", "ubuntu/22.04")],
    instType := "container", status := "Running", state := none }

/-- The write-back step of the sync's update path never changes the set of
row names: a successful `UpdateLimits` maps the rows in place and a failed
one leaves the store untouched. -/
theorem updateMatch_names (st : List Instance) (nm : String)
    (lim : List (String × String)) :
    (match updateInstanceLimits st nm lim with
      | Except.ok s2 => s2
      | Except.error _ => st).map Instance.name = st.map Instance.name := by
  cases hu : updateInstanceLimits st nm lim with
  | error e => rfl
  | ok s2 =>
    show s2.map Instance.name = st.map Instance.name
    rw [updateInstanceLimits] at hu
    split at hu
    · rw [Except.ok.injEq] at hu
      subst hu
      rw [List.map_map]
      apply List.map_congr_left
      intro a _
      simp only [Function.comp]
      split <;> rfl
    · simp at hu

/-- C1: the import branch of `RunStartupSync` is dead code, so the sync
never creates an instance row.  `InstanceRepository.Get` replaces
`sql.ErrNoRows` with its own `instance not found` error, and
`RunStartupSync` compares the returned error against `sql.ErrNoRows` with
`==`, which therefore never matches: a live instance absent from the store
falls into the log-and-skip branch and no row — in particular none with
the default backup policy — is written.  The store's row names after the
sync are exactly the row names before it, for every provider listing. -/
theorem runStartupSync_never_creates_rows (store : List Instance)
    (lxdInstances : List LxdInstance) :
    (runStartupSync store lxdInstances).map Instance.name = store.map Instance.name ∧
    runStartupSync [] [ghostLxd] = [] := by
  have hone : ∀ (st : List Instance) (li : LxdInstance),
      (syncOne st li).map Instance.name = st.map Instance.name := by
    intro st li
    rw [syncOne]
    cases hf : st.find? (fun i => i.name == li.name) with
    | none => simp [getInstance, hf]
    | some inst =>
      have hg : getInstance st li.name = Except.ok
          (if inst.backupRetention == 0 then { inst with backupRetention := 7 }
           else inst) := by
        rw [getInstance, hf]
      rw [hg]
      exact updateMatch_names st _ _
  constructor
  · induction lxdInstances generalizing store with
    | nil => rfl
    | cons li rest ih => exact (ih (syncOne store li)).trans (hone store li)
  · rfl

/-! ## IPAM allocation lemmas -/

/-- Membership in the owned-snapshot of a network. -/
theorem mem_ownedIPsIn {netId : String} {leases : List Lease} {s : String} :
    s ∈ ownedIPsIn netId leases ↔
      ∃ l ∈ leases, l.networkId = netId ∧ l.instanceName ≠ none ∧ l.ip = s := by
  simp [ownedIPsIn, List.mem_filter, Option.isSome_iff_ne_none]
  constructor
  · rintro ⟨l, ⟨hl, hnet, hown⟩, hip⟩
    exact ⟨l, hl, hnet, hown, hip⟩
  · rintro ⟨l, hl, hnet, hown, hip⟩
    exact ⟨l, ⟨hl, hnet, hown⟩, hip⟩

/-- The claim-or-insert transaction rolls back exactly when a lease row for
the address exists and every row with that address is owned. -/
theorem claimIP_eq_none_iff {now : Nat} {netId name s : String} {leases : List Lease} :
    claimIP now netId name s leases = none ↔
      (∃ l ∈ leases, l.ip = s) ∧ (∀ l ∈ leases, l.ip = s → l.instanceName ≠ none) := by
  cases hg : leases.any (fun l => l.ip == s) with
  | false =>
    have hno : ∀ l ∈ leases, l.ip ≠ s := by
      intro l hl
      simpa using List.any_eq_false.mp hg l hl
    simp only [claimIP, hg, Bool.false_eq_true, if_false]
    constructor
    · intro h
      exact absurd h (by simp)
    · rintro ⟨⟨l, hl, hip⟩, -⟩
      exact absurd hip (hno l hl)
  | true =>
    cases hc : leases.countP (fun l => l.ip == s && l.instanceName.isNone) with
    | zero =>
      have hall : ∀ l ∈ leases, l.ip = s → l.instanceName ≠ none := by
        intro l hl hip hown
        have := List.countP_eq_zero.mp hc l hl
        simp [hip, hown] at this
      obtain ⟨l0, hl0, hip0⟩ : ∃ l ∈ leases, l.ip = s := by
        obtain ⟨l0, hl0, h0⟩ := List.any_eq_true.mp hg
        exact ⟨l0, hl0, by simpa using h0⟩
      simp only [claimIP, hg, if_true, hc, Nat.zero_eq, beq_self_eq_true, if_pos]
      exact iff_of_true trivial ⟨⟨l0, hl0, hip0⟩, hall⟩
    | succ k =>
      have hone : ∃ l ∈ leases, l.ip = s ∧ l.instanceName = none := by
        have : 0 < leases.countP (fun l => l.ip == s && l.instanceName.isNone) := by
          rw [hc]
          exact Nat.succ_pos k
        obtain ⟨l0, hl0, h0⟩ := List.countP_pos_iff.mp this
        simp only [Bool.and_eq_true, beq_iff_eq, Option.isNone_iff_eq_none] at h0
        exact ⟨l0, hl0, h0.1, h0.2⟩
      have hfalse : ¬ ((∃ l ∈ leases, l.ip = s) ∧
          (∀ l ∈ leases, l.ip = s → l.instanceName ≠ none)) := by
        rintro ⟨-, hall⟩
        obtain ⟨l0, hl0, hip0, hown0⟩ := hone
        exact hall l0 hl0 hip0 hown0
      simp only [claimIP, hg, if_true, hc]
      exact iff_of_false (by simp) hfalse

/-- A successful claim-or-insert leaves a row of the lease table carrying
the address owned by the requesting instance. -/
theorem claimIP_post {now : Nat} {netId name s : String} {leases leases' : List Lease}
    (h : claimIP now netId name s leases = some leases') :
    ∃ l ∈ leases', l.ip = s ∧ l.instanceName = some name := by
  cases hg : leases.any (fun l => l.ip == s) with
  | false =>
    simp only [claimIP, hg, Bool.false_eq_true, if_false, Option.some.injEq] at h
    subst h
    exact ⟨_, List.mem_append_right _ (List.mem_singleton_self _), rfl, rfl⟩
  | true =>
    cases hc : leases.countP (fun l => l.ip == s && l.instanceName.isNone) with
    | zero =>
      simp [claimIP, hg, hc] at h
    | succ k =>
      simp only [claimIP, hg, if_true, hc] at h
      rw [if_neg (by simp)] at h
      rw [Option.some.injEq] at h
      subst h
      have hpos : 0 < leases.countP (fun l => l.ip == s && l.instanceName.isNone) := by
        rw [hc]
        exact Nat.succ_pos k
      obtain ⟨l0, hl0, h0⟩ := List.countP_pos_iff.mp hpos
      refine ⟨_, List.mem_map_of_mem _ hl0, ?_⟩
      have h0' := h0
      simp only [Bool.and_eq_true, beq_iff_eq, Option.isNone_iff_eq_none] at h0'
      simp [h0, h0'.1, h0'.2]

/-- When the lease table's ips are pairwise distinct (the `ip` column is the
primary key), a successfully claimed address was unowned by every row
carrying it before the transaction. -/
theorem claimIP_pre {now : Nat} {netId name s : String} {leases leases' : List Lease}
    (hnd : (leases.map Lease.ip).Nodup)
    (h : claimIP now netId name s leases = some leases') :
    ∀ l ∈ leases, l.ip = s → l.instanceName = none := by
  intro l hl hip
  cases hg : leases.any (fun l => l.ip == s) with
  | false =>
    exact absurd hip (by simpa using List.any_eq_false.mp hg l hl)
  | true =>
    cases hc : leases.countP (fun l => l.ip == s && l.instanceName.isNone) with
    | zero =>
      simp [claimIP, hg, hc] at h
    | succ k =>
      have hpos : 0 < leases.countP (fun l => l.ip == s && l.instanceName.isNone) := by
        rw [hc]
        exact Nat.succ_pos k
      obtain ⟨l0, hl0, h0⟩ := List.countP_pos_iff.mp hpos
      simp only [Bool.and_eq_true, beq_iff_eq, Option.isNone_iff_eq_none] at h0
      have heq : l = l0 :=
        List.inj_on_of_nodup_map hnd hl hl0 (by rw [hip, h0.1])
      rw [heq]
      exact h0.2

/-- One scan step fails — the address is either in the owned snapshot or
its transaction rolls back — exactly when some lease row carries the
address with a non-null owner (given the primary key on `ip`). -/
theorem scanStep_fails_iff (now : Nat) (netId name : String) (leases : List Lease)
    (hnd : (leases.map Lease.ip).Nodup) (s : String) :
    ((ownedIPsIn netId leases).contains s = true ∨
        claimIP now netId name s leases = none) ↔
      ∃ l ∈ leases, l.ip = s ∧ l.instanceName ≠ none := by
  constructor
  · rintro (hc | hc)
    · obtain ⟨l, hl, _, hown, hip⟩ := mem_ownedIPsIn.mp (by simpa using hc)
      exact ⟨l, hl, hip, hown⟩
    · obtain ⟨⟨l, hl, hip⟩, hall⟩ := claimIP_eq_none_iff.mp hc
      exact ⟨l, hl, hip, hall l hl hip⟩
  · rintro ⟨l0, hl0, hip0, hown0⟩
    by_cases hc : (ownedIPsIn netId leases).contains s = true
    · exact Or.inl hc
    · refine Or.inr (claimIP_eq_none_iff.mpr ⟨⟨l0, hl0, hip0⟩, ?_⟩)
      intro l hl hip
      have heq : l = l0 :=
        List.inj_on_of_nodup_map hnd hl hl0 (by rw [hip, hip0])
      rw [heq]
      exact hown0

/-- A successful scan returns an address drawn from the scanned window that
is outside the owned snapshot, together with its committed transaction. -/
theorem scanForFree_some (now : Nat) (net : Network) (name : String)
    (used : List String) (leases : List Lease) :
    ∀ (fuel i : Nat) (r : String) (leases' : List Lease),
      scanForFree now net name used leases i fuel = some (r, leases') →
      ∃ k, i ≤ k ∧ k < i + fuel ∧ r = intToIP k ∧
        used.contains (intToIP k) = false ∧
        claimIP now net.id name (intToIP k) leases = some leases' := by
  intro fuel
  induction fuel with
  | zero =>
    intro i r leases' h
    simp [scanForFree] at h
  | succ fuel ih =>
    intro i r leases' h
    rw [scanForFree] at h
    by_cases hc : used.contains (intToIP i) = true
    · rw [if_pos hc] at h
      obtain ⟨k, hk1, hk2, hk3, hk4, hk5⟩ := ih (i + 1) r leases' h
      exact ⟨k, by omega, by omega, hk3, hk4, hk5⟩
    · rw [if_neg hc] at h
      cases hcl : claimIP now net.id name (intToIP i) leases with
      | some leases2 =>
        rw [hcl, Option.some.injEq] at h
        injection h with h1 h2
        subst h1
        subst h2
        exact ⟨i, Nat.le_refl i, by omega, rfl, by simpa using hc, hcl⟩
      | none =>
        rw [hcl] at h
        obtain ⟨k, hk1, hk2, hk3, hk4, hk5⟩ := ih (i + 1) r leases' h
        exact ⟨k, by omega, by omega, hk3, hk4, hk5⟩

/-- The scan over a window fails exactly when every address of the window
is carried, owned, by some lease row (given the primary key on `ip`). -/
theorem scanForFree_none_iff (now : Nat) (net : Network) (name : String)
    (leases : List Lease) (hnd : (leases.map Lease.ip).Nodup) :
    ∀ (fuel i : Nat),
      scanForFree now net name (ownedIPsIn net.id leases) leases i fuel = none ↔
        ∀ k, i ≤ k → k < i + fuel →
          ∃ l ∈ leases, l.ip = intToIP k ∧ l.instanceName ≠ none := by
  intro fuel
  induction fuel with
  | zero =>
    intro i
    constructor
    · intro _ k hk1 hk2
      omega
    · intro _
      rfl
  | succ fuel ih =>
    intro i
    rw [scanForFree]
    by_cases hc : (ownedIPsIn net.id leases).contains (intToIP i) = true
    · rw [if_pos hc]
      have howned : ∃ l ∈ leases, l.ip = intToIP i ∧ l.instanceName ≠ none :=
        (scanStep_fails_iff now net.id name leases hnd (intToIP i)).mp (Or.inl hc)
      rw [ih (i + 1)]
      constructor
      · intro hall k hk1 hk2
        rcases Nat.lt_or_ge i k with hik | hik
        · exact hall k (by omega) (by omega)
        · have hik' : k = i := by omega
          rw [hik']
          exact howned
      · intro hall k hk1 hk2
        exact hall k (by omega) (by omega)
    · rw [if_neg hc]
      cases hcl : claimIP now net.id name (intToIP i) leases with
      | some leases2 =>
        constructor
        · intro h
          simp at h
        · intro hall
          have howned := hall i (Nat.le_refl i) (by omega)
          have hfail := (scanStep_fails_iff now net.id name leases hnd
            (intToIP i)).mpr howned
          rcases hfail with h | h
          · exact absurd h hc
          · rw [hcl] at h
            simp at h
      | none =>
        have howned : ∃ l ∈ leases, l.ip = intToIP i ∧ l.instanceName ≠ none :=
          (scanStep_fails_iff now net.id name leases hnd (intToIP i)).mp
            (Or.inr hcl)
        rw [ih (i + 1)]
        constructor
        · intro hall k hk1 hk2
          rcases Nat.lt_or_ge i k with hik | hik
          · exact hall k (by omega) (by omega)
          · have hik' : k = i := by omega
            rw [hik']
            exact howned
        · intro hall k hk1 hk2
          exact hall k (by omega) (by omega)

/-- A successful pool allocation commits a claim for an address inside the
pool's scanned window `[(start+2) mod 2^32, end)`. -/
theorem tryAllocateInNetwork_some {now : Nat} {net : Network} {name : String}
    {leases leases' : List Lease} {r : String}
    (h : tryAllocateInNetwork now net name leases = some (r, leases')) :
    ∃ k, ((cidrToRange net.cidrBase net.cidrOnes).1 + 2) % 2 ^ 32 ≤ k ∧
      k < (cidrToRange net.cidrBase net.cidrOnes).2 ∧ r = intToIP k ∧
      claimIP now net.id name (intToIP k) leases = some leases' := by
  rw [tryAllocateInNetwork] at h
  obtain ⟨k, hk1, hk2, hk3, _, hk5⟩ :=
    scanForFree_some now net name (ownedIPsIn net.id leases) leases _ _ r leases' h
  exact ⟨k, hk1, by omega, hk3, hk5⟩

/-- A pool allocation fails exactly when every address of the pool's
scanned window `[(start+2) mod 2^32, end)` is carried, owned, by some
lease row (given the primary key on `ip`). -/
theorem tryAllocateInNetwork_none_iff (now : Nat) (net : Network) (name : String)
    (leases : List Lease) (hnd : (leases.map Lease.ip).Nodup) :
    tryAllocateInNetwork now net name leases = none ↔
      ∀ k, ((cidrToRange net.cidrBase net.cidrOnes).1 + 2) % 2 ^ 32 ≤ k →
        k < (cidrToRange net.cidrBase net.cidrOnes).2 →
        ∃ l ∈ leases, l.ip = intToIP k ∧ l.instanceName ≠ none := by
  rw [tryAllocateInNetwork]
  rw [scanForFree_none_iff now net name leases hnd]
  constructor
  · intro hall k hk1 hk2
    exact hall k hk1 (by omega)
  · intro hall k hk1 hk2
    exact hall k hk1 (by omega)

/-- A successful `AllocateIP` came from one of the candidate networks. -/
theorem allocateIPLoop_some {now : Nat} {name : String} {leases leases' : List Lease}
    {r : String} :
    ∀ {nets : List Network}, allocateIPLoop now name leases nets = some (r, leases') →
      ∃ net ∈ nets, tryAllocateInNetwork now net name leases = some (r, leases') := by
  intro nets
  induction nets with
  | nil =>
    intro h
    simp [allocateIPLoop] at h
  | cons net rest ih =>
    intro h
    rw [allocateIPLoop] at h
    cases ht : tryAllocateInNetwork now net name leases with
    | some p =>
      rw [ht] at h
      rw [Option.some.injEq] at h
      subst h
      exact ⟨net, List.mem_cons_self net rest, ht⟩
    | none =>
      rw [ht] at h
      obtain ⟨net2, hmem, h2⟩ := ih h
      exact ⟨net2, List.mem_cons_of_mem net hmem, h2⟩

/-- `AllocateIP`'s loop fails exactly when every candidate network fails. -/
theorem allocateIPLoop_none_iff {now : Nat} {name : String} {leases : List Lease} :
    ∀ {nets : List Network}, allocateIPLoop now name leases nets = none ↔
      ∀ net ∈ nets, tryAllocateInNetwork now net name leases = none := by
  intro nets
  induction nets with
  | nil =>
    simp [allocateIPLoop]
  | cons net rest ih =>
    rw [allocateIPLoop]
    cases ht : tryAllocateInNetwork now net name leases with
    | some p =>
      simp only [List.mem_cons]
      exact iff_of_false (by simp) (fun hall => by simpa [ht] using hall net (Or.inl rfl))
    | none =>
      rw [ih]
      constructor
      · intro hall net2 hmem
        rcases List.mem_cons.mp hmem with rfl | hmem2
        · exact ht
        · exact hall net2 hmem2
      · intro hall net2 hmem
        exact hall net2 (List.mem_cons_of_mem net hmem)

/-- C2 (amended): a successful `AllocateIP` — on a lease table whose ips
are pairwise distinct, as the primary key on `ip` guarantees — returns an
address drawn from a candidate (private) network, whose 32-bit value lies
in the scanned window `[(network+2) mod 2^32, broadcast)` of that network
(the scan start `network+2` is a Go `uint32` and wraps at the top of the
address space, which is what the counterexample exhibits), that no lease
row carried with a non-null owner before the call; afterwards a lease row
carries that address owned by the requesting instance.  In particular an
address still owned by some instance is never returned. -/
theorem allocateIP_sound (now : Nat) (networks : List Network) (name : String)
    (leases : List Lease) (r : String) (leases' : List Lease)
    (hnd : (leases.map Lease.ip).Nodup)
    (h : allocateIP now networks name leases = some (r, leases')) :
    ∃ net ∈ networks, net.isPublic = false ∧
      (∃ k, ((cidrToRange net.cidrBase net.cidrOnes).1 + 2) % 2 ^ 32 ≤ k ∧
        k < (cidrToRange net.cidrBase net.cidrOnes).2 ∧ r = intToIP k) ∧
      (∀ l ∈ leases, l.ip = r → l.instanceName = none) ∧
      (∃ l ∈ leases', l.ip = r ∧ l.instanceName = some name) := by
  rw [allocateIP] at h
  obtain ⟨net, hmem, htry⟩ := allocateIPLoop_some h
  rw [getAvailableNetworks, List.mem_filter] at hmem
  obtain ⟨k, hk1, hk2, hk3, hclaim⟩ := tryAllocateInNetwork_some htry
  refine ⟨net, hmem.1, by simpa using hmem.2, ⟨k, hk1, hk2, hk3⟩, ?_, ?_⟩
  · intro l hl hip
    exact claimIP_pre hnd hclaim l hl (by rw [hip, hk3])
  · rw [hk3]
    exact claimIP_post hclaim

/-- C2 witness: on the empty lease table with the single /29 pool, the call
made at tick 0 for `vm1` yields `10.0.0.2` and a one-row table owning it. -/
theorem allocateIP_sound_witness :
    ∃ net ∈ [net29ex], net.isPublic = false ∧
      (∃ k, ((cidrToRange net.cidrBase net.cidrOnes).1 + 2) % 2 ^ 32 ≤ k ∧
        k < (cidrToRange net.cidrBase net.cidrOnes).2 ∧ "10.0.0.2" = intToIP k) ∧
      (∀ l ∈ ([] : List Lease), l.ip = "10.0.0.2" → l.instanceName = none) ∧
      (∃ l ∈ [lease2ex], l.ip = "10.0.0.2" ∧ l.instanceName = some "vm1") :=
  allocateIP_sound 0 [net29ex] "vm1" [] "10.0.0.2" [lease2ex] (by decide) (by decide)

/-- C3 (amended): on the `10.0.0.0/29` pool starting from an empty lease
table, six sequential `AllocateIP` calls yield `.2, .3, .4, .5, .6` in
order and the sixth fails with the pool-exhausted error; and in general —
on a lease table whose ips are pairwise distinct — `AllocateIP` fails
exactly when every address of every candidate (private) network's scanned
window `[(network+2) mod 2^32, broadcast)` is carried, owned, by some
lease row (the scan start is a Go `uint32` and wraps at the top of the
address space, which is what the counterexample exhibits). -/
theorem allocateIP_poolExhausted (now : Nat) (networks : List Network) (name : String)
    (leases : List Lease) (hnd : (leases.map Lease.ip).Nodup) :
    (allocSeq 0 [net29ex] ["vm1", "vm2", "vm3", "vm4", "vm5", "vm6"] [] =
      [some "10.0.0.2", some "10.0.0.3", some "10.0.0.4", some "10.0.0.5",
       some "10.0.0.6", none]) ∧
    (allocateIP now networks name leases = none ↔
      ∀ net ∈ networks, net.isPublic = false →
        ∀ k, ((cidrToRange net.cidrBase net.cidrOnes).1 + 2) % 2 ^ 32 ≤ k →
          k < (cidrToRange net.cidrBase net.cidrOnes).2 →
          ∃ l ∈ leases, l.ip = intToIP k ∧ l.instanceName ≠ none) := by
  constructor
  · decide
  · rw [allocateIP, allocateIPLoop_none_iff]
    constructor
    · intro hall net hmem hpub
      rw [← tryAllocateInNetwork_none_iff now net name leases hnd]
      exact hall net (by rw [getAvailableNetworks, List.mem_filter]; simp [hmem, hpub])
    · intro hall net hmem
      rw [getAvailableNetworks, List.mem_filter] at hmem
      rw [tryAllocateInNetwork_none_iff now net name leases hnd]
      exact hall net hmem.1 (by simpa using hmem.2)

/-- The /29 pool with all five usable addresses owned. -/
def fullLeases : List Lease :=
  [{ ip := "10.0.0.2", instanceName := some "vm1", allocatedAt := some 0,
     networkId := "n1" },
   { ip := "10.0.0.3", instanceName := some "vm2", allocatedAt := some 0,
     networkId := "n1" },
   { ip := "10.0.0.4", instanceName := some "vm3", allocatedAt := some 0,
     networkId := "n1" },
   { ip := "10.0.0.5", instanceName := some "vm4", allocatedAt := some 0,
     networkId := "n1" },
   { ip := "10.0.0.6", instanceName := some "vm5", allocatedAt := some 0,
     networkId := "n1" }]

/-- C3 witness: with all five usable /29 addresses owned, a further
`AllocateIP` fails. -/
theorem allocateIP_poolExhausted_witness :
    allocateIP 0 [net29ex] "vm6" fullLeases = none := by
  refine (allocateIP_poolExhausted 0 [net29ex] "vm6" fullLeases (by decide)).2.mpr ?_
  intro net hmem hpub k hk1 hk2
  have hnet : net = net29ex := by simpa using hmem
  subst hnet
  have hr : cidrToRange net29ex.cidrBase net29ex.cidrOnes = (167772160, 167772167) := by
    decide
  rw [hr] at hk1 hk2
  have hk1' : 167772162 ≤ k := by omega
  have hk2' : k < 167772167 := by omega
  interval_cases k <;> decide

/-- The operator-creatable top-of-range pool `255.255.255.255/31` (base
4294967295): its unwrapped usable window `[network+2, broadcast)` is
empty, but `startIP + 2` wraps in `uint32` to 1, so the scan runs over
`[1, 4294967295)`. -/
def net255ex : Network :=
  { id := "n255", name := "top", cidrBase := 4294967295, cidrOnes := 31,
    gateway := "", dns1 := "", vlanId := 0, isPublic := false }

/-- C2 counterexample: on the top-of-range /31 pool with an empty lease
table, the call succeeds and returns `0.0.0.1` — the 32-bit value 1, which
does not lie in `[network+2, broadcast)` read without wrap-around, since
`network+2 = 4294967297 > 1`: the scan start is computed in `uint32` and
wraps, so the original unwrapped window claim fails here. -/
theorem allocateIP_wrap_cex :
    (allocateIP 0 [net255ex] "vm1" [] =
      some ("0.0.0.1", [{ ip := "0.0.0.1", instanceName := some "vm1",
                          allocatedAt := some 0, networkId := "n255" }])) ∧
    ("0.0.0.1" = intToIP 1) ∧
    (1 < (cidrToRange net255ex.cidrBase net255ex.cidrOnes).1 + 2) := by
  refine ⟨?_, by decide, by decide⟩
  decide

/-- C3 counterexample: the top-of-range /31 pool's usable range
`[network+2, broadcast)`, read without wrap-around, is empty — so on the
empty lease table every usable address is (vacuously) owned — yet
`AllocateIP` does not fail: the wrapped `uint32` scan allocates
`0.0.0.1`. -/
theorem allocateIP_exhaust_cex :
    ((allocateIP 0 [net255ex] "vm1" []).isSome = true) ∧
    ((cidrToRange net255ex.cidrBase net255ex.cidrOnes).2 ≤
      (cidrToRange net255ex.cidrBase net255ex.cidrOnes).1 + 2) := by
  refine ⟨?_, by decide⟩
  decide

end Axeon
